import Mathlib

/-!
Shallow embedding of the release engine in release/core.py: the Step and
Release classes, the Phase enumeration and the four error classes.
Side effects are modelled by recording, for each effectful collaborator
call site, the outcome that the call produces at that point of the run:
the single check collaborator is invoked at up to three temporally
distinct sites (initial, final, rollback), so each site gets its own
recorded outcome.  Console output is presentation-only and not modelled.
-/

namespace ReleaseCore

/-- Phases that can have exceptions due to side effects (class Phase). -/
inductive Phase where
  | CHECK_INITIAL
  | CHECK_FINAL
  | CHECK_ROLLBACK
  | EXECUTE
  | ROLLBACK
deriving DecidableEq

/-- Python exceptions, as far as the except clauses of core.py can tell
them apart: the four error classes of the module, plus any other
exception (PyExc.other).  ExecutionError stores a traceback of the
exception it wraps; the model keeps the wrapped exception itself as the
track field. -/
inductive PyExc (σ : Type) where
  | preErr (name : String) (state : σ)
  | postErr (name : String) (actual : σ) (expected : σ)
  | rbPostErr (name : String) (actual : σ) (expected : Option σ)
  | execErr (name : String) (phase : Phase) (track : PyExc σ)
  | other (msg : String)
deriving DecidableEq

/-- One release step (class Step).  The fields whose name ends in
result record the outcome of the corresponding effectful collaborator
call at its call site; the three check sites all invoke the one check
collaborator, at three different moments of the run.  The field
`initial` is the stored initial state, none before execute has run
(None in the source). -/
structure Step (σ : Type) where
  name : String
  check_initial_result : Except (PyExc σ) σ
  precondition : σ → Except (PyExc σ) Bool
  expected : σ
  action_result : Except (PyExc σ) Unit
  check_final_result : Except (PyExc σ) σ
  rollback_action_result : Except (PyExc σ) Unit
  check_rollback_result : Except (PyExc σ) σ
  initial : Option σ := none

variable {σ : Type} [DecidableEq σ]

/-- Step.wrap: reclassify any exception raised by an effectful call as
an ExecutionError tagged with the phase and the step name; the source
catches every exception (except Exception), the module error classes
included. -/
def Step.wrap {α : Type} (s : Step σ) (phase : Phase) (r : Except (PyExc σ) α) :
    Except (PyExc σ) α :=
  match r with
  | Except.ok a => Except.ok a
  | Except.error e => Except.error (PyExc.execErr s.name phase e)

/-- The wrapped check at the CHECK_INITIAL call site (set in init). -/
def Step.check_initial (s : Step σ) : Except (PyExc σ) σ :=
  s.wrap Phase.CHECK_INITIAL s.check_initial_result

/-- The wrapped check at the CHECK_FINAL call site (set in init). -/
def Step.check_final (s : Step σ) : Except (PyExc σ) σ :=
  s.wrap Phase.CHECK_FINAL s.check_final_result

/-- The wrapped check at the CHECK_ROLLBACK call site (set in init). -/
def Step.check_rollback (s : Step σ) : Except (PyExc σ) σ :=
  s.wrap Phase.CHECK_ROLLBACK s.check_rollback_result

/-- The wrapped action (set in init, Phase EXECUTE). -/
def Step.action (s : Step σ) : Except (PyExc σ) Unit :=
  s.wrap Phase.EXECUTE s.action_result

/-- The wrapped rollback action (set in init, Phase ROLLBACK). -/
def Step.rollback_action (s : Step σ) : Except (PyExc σ) Unit :=
  s.wrap Phase.ROLLBACK s.rollback_action_result

/-- The part of Step.execute that runs after the initial state has been
checked and stored on the step: precondition test, action, final check
compared with expected.  In the source every one of these branches
returns with the same mutated step (only `initial` was assigned), so
Step.execute below builds that step once and runs this tail on it. -/
def Step.executeAux (s : Step σ) (st : σ) : Except (PyExc σ) Unit :=
  match s.precondition st with
  | Except.error e => Except.error e
  | Except.ok false => Except.error (PyExc.preErr s.name st)
  | Except.ok true =>
    match s.action with
    | Except.error e => Except.error e
    | Except.ok _ =>
      match s.check_final with
      | Except.error e => Except.error e
      | Except.ok final =>
        if final = s.expected then Except.ok ()
        else Except.error (PyExc.postErr s.name final s.expected)

/-- Step.execute: check and store the initial state, test the
precondition, run the action, check the final state against expected.
Returns the step with its mutated `initial` field together with what
the call raises or returns. -/
def Step.execute (s : Step σ) : Step σ × Except (PyExc σ) Unit :=
  match s.check_initial with
  | Except.error e => (s, Except.error e)
  | Except.ok st =>
    ({ s with initial := some st }, Step.executeAux { s with initial := some st } st)

/-- Step.rollback: run the rollback action, then check that the
observed state equals the stored initial state, raising a
RollbackPostconditionError otherwise. -/
def Step.rollback (s : Step σ) : Except (PyExc σ) Unit :=
  match s.rollback_action with
  | Except.error e => Except.error e
  | Except.ok _ =>
    match s.check_rollback with
    | Except.error e => Except.error e
    | Except.ok final =>
      if some final = s.initial then Except.ok ()
      else Except.error (PyExc.rbPostErr s.name final s.initial)

/-- A release (class Release): a name, the fixed step sequence, the
executed steps and the captured exceptions.  The stdout plumbing is
presentation-only and not modelled. -/
structure Release (σ : Type) where
  name : String
  steps : List (Step σ)
  executed_steps : List (Step σ) := []
  exceptions : List (PyExc σ) := []

/-- The loop of Release.rollback: call rollback on the executed steps
in the order the list holds them, stopping at the first failure
(except Exception / break).  Returns the names of the steps whose
rollback was invoked, in invocation order. -/
def rollbackLoop : List (Step σ) → List String
  | [] => []
  | s :: rest =>
    match s.rollback with
    | Except.ok _ => s.name :: rollbackLoop rest
    | Except.error _ => [s.name]

/-- Release.explain_exceptions: when any exceptions were captured the
list is reversed in place, so they read most recent first. -/
def explain_exceptions (ex : List (PyExc σ)) : List (PyExc σ) :=
  if ex.isEmpty then ex else ex.reverse

/-- Observable result of one Release.execute call: the final values of
the two mutable lists of the release, the raised or returned outcome,
the names of the steps the loop reached (in order), and, when
Release.rollback was invoked, the names rollbackLoop went through. -/
structure RunState (σ : Type) where
  executed_steps : List (Step σ)
  exceptions : List (PyExc σ)
  outcome : Except (PyExc σ) Unit
  attempted : List String
  rollbacks : Option (List String)

/-- The shared tail of the three except handlers of Release.execute:
at this point the handler has already appended the exception to the
exceptions list (and, when the action took effect, the step to the
executed list); then self.rollback() runs the cascade followed by
explain_exceptions, and the exception is re-raised. -/
def finishFail (es : List (Step σ)) (ex : List (PyExc σ)) (e : PyExc σ) (nm : String) :
    RunState σ :=
  ⟨es, explain_exceptions ex, Except.error e, [nm], some (rollbackLoop es)⟩

/-- The for loop of Release.execute over the remaining steps, carrying
the current executed_steps and exceptions lists.  A PreconditionError
leaves the step out of the executed list; a PostconditionError appends
it; an ExecutionError appends it exactly when its phase is CHECK_FINAL;
any other exception is caught by no except clause and propagates with
no recording and no rollback. -/
def executeLoop (es : List (Step σ)) (ex : List (PyExc σ)) : List (Step σ) → RunState σ
  | [] => ⟨es, ex, Except.ok (), [], none⟩
  | s :: rest =>
    match s.execute with
    | (stepUpd, Except.ok _) =>
      let res := executeLoop (es ++ [stepUpd]) ex rest
      { res with attempted := s.name :: res.attempted }
    | (_, Except.error (PyExc.preErr n st)) =>
      finishFail es (ex ++ [PyExc.preErr n st]) (PyExc.preErr n st) s.name
    | (stepUpd, Except.error (PyExc.postErr n a b)) =>
      finishFail (es ++ [stepUpd]) (ex ++ [PyExc.postErr n a b]) (PyExc.postErr n a b) s.name
    | (stepUpd, Except.error (PyExc.execErr n ph tr)) =>
      finishFail (if ph = Phase.CHECK_FINAL then es ++ [stepUpd] else es)
        (ex ++ [PyExc.execErr n ph tr]) (PyExc.execErr n ph tr) s.name
    | (_, Except.error (PyExc.rbPostErr n a b)) =>
      ⟨es, ex, Except.error (PyExc.rbPostErr n a b), [s.name], none⟩
    | (_, Except.error (PyExc.other m)) =>
      ⟨es, ex, Except.error (PyExc.other m), [s.name], none⟩

/-- Release.execute: run the loop starting from the current mutable
state of the release. -/
def Release.execute (r : Release σ) : RunState σ :=
  executeLoop r.executed_steps r.exceptions r.steps

/-- The step as mutated by its own execute call. -/
def execUpd (s : Step σ) : Step σ := (s.execute).1

/-- The outcome raised or returned by the execute call of a step. -/
def execOut (s : Step σ) : Except (PyExc σ) Unit := (s.execute).2

/-- Every step of the list executes successfully. -/
def allOk (l : List (Step σ)) : Prop := ∀ s ∈ l, execOut s = Except.ok ()

/-- A step over state Nat that succeeds everywhere: the check always
observes 0, the precondition holds, the action and rollback action
succeed, and expected is the observed 0. -/
def okStep (nm : String) : Step Nat :=
  { name := nm
    check_initial_result := Except.ok 0
    precondition := fun _ => Except.ok true
    expected := 0
    action_result := Except.ok ()
    check_final_result := Except.ok 0
    rollback_action_result := Except.ok ()
    check_rollback_result := Except.ok 0 }

/-- A step whose precondition evaluates to false. -/
def stepPreFalse (nm : String) : Step Nat :=
  { okStep nm with precondition := fun _ => Except.ok false }

/-- A step whose final observed state 0 differs from its expected 1. -/
def stepPostFail (nm : String) : Step Nat :=
  { okStep nm with expected := 1 }

/-- A step whose action raises an unexpected exception. -/
def stepActionFail (nm : String) : Step Nat :=
  { okStep nm with action_result := Except.error (PyExc.other "boom") }

/-- A step whose postcondition fails and whose rollback action then
raises an unexpected exception. -/
def stepPostRbFail (nm : String) : Step Nat :=
  { okStep nm with
      expected := 1
      rollback_action_result := Except.error (PyExc.other "rbboom") }

/-- A step whose precondition raises a generic exception instead of
returning a boolean. -/
def stepPreRaise (nm : String) : Step Nat :=
  { okStep nm with precondition := fun _ => Except.error (PyExc.other "weird") }

/-- A step whose precondition raises a PreconditionError itself. -/
def stepPreRaisePreErr (nm : String) : Step Nat :=
  { okStep nm with precondition := fun _ => Except.error (PyExc.preErr nm 99) }

/-- A step whose check raises at the CHECK_INITIAL site. -/
def stepCheckFail (nm : String) : Step Nat :=
  { okStep nm with check_initial_result := Except.error (PyExc.other "boom") }

/-- A step whose check raises at the CHECK_FINAL site. -/
def stepFinalFail (nm : String) : Step Nat :=
  { okStep nm with check_final_result := Except.error (PyExc.other "boom") }

/-- A step whose rollback action raises. -/
def stepRbFail (nm : String) : Step Nat :=
  { okStep nm with rollback_action_result := Except.error (PyExc.other "boom") }

/-- A step whose check raises at the CHECK_ROLLBACK site. -/
def stepCheckRbFail (nm : String) : Step Nat :=
  { okStep nm with check_rollback_result := Except.error (PyExc.other "boom") }

/-- A release over Nat states with the given steps and fresh mutable
state, as built by init. -/
def relSimple (l : List (Step Nat)) : Release Nat :=
  { name := "rel", steps := l }

/-- Eta expansion of the execute pair of a step. -/
theorem execute_pair (s : Step σ) : s.execute = (execUpd s, execOut s) := rfl

/-- Unfolding of the loop at a step that succeeds. -/
theorem loop_cons_ok (es : List (Step σ)) (ex : List (PyExc σ)) (s : Step σ)
    (rest : List (Step σ)) (h : execOut s = Except.ok ()) :
    executeLoop es ex (s :: rest) =
      { executeLoop (es ++ [execUpd s]) ex rest with
          attempted := s.name :: (executeLoop (es ++ [execUpd s]) ex rest).attempted } := by
  rw [executeLoop, execute_pair s, h]

/-- Unfolding of the loop at a step that raises a PreconditionError. -/
theorem loop_cons_pre (es : List (Step σ)) (ex : List (PyExc σ)) (s : Step σ)
    (rest : List (Step σ)) (n : String) (st : σ)
    (h : execOut s = Except.error (PyExc.preErr n st)) :
    executeLoop es ex (s :: rest) =
      finishFail es (ex ++ [PyExc.preErr n st]) (PyExc.preErr n st) s.name := by
  rw [executeLoop, execute_pair s, h]

/-- Unfolding of the loop at a step that raises a PostconditionError. -/
theorem loop_cons_post (es : List (Step σ)) (ex : List (PyExc σ)) (s : Step σ)
    (rest : List (Step σ)) (n : String) (a b : σ)
    (h : execOut s = Except.error (PyExc.postErr n a b)) :
    executeLoop es ex (s :: rest) =
      finishFail (es ++ [execUpd s]) (ex ++ [PyExc.postErr n a b])
        (PyExc.postErr n a b) s.name := by
  rw [executeLoop, execute_pair s, h]

/-- Unfolding of the loop at a step that raises an ExecutionError. -/
theorem loop_cons_exec (es : List (Step σ)) (ex : List (PyExc σ)) (s : Step σ)
    (rest : List (Step σ)) (n : String) (p : Phase) (tr : PyExc σ)
    (h : execOut s = Except.error (PyExc.execErr n p tr)) :
    executeLoop es ex (s :: rest) =
      finishFail (if p = Phase.CHECK_FINAL then es ++ [execUpd s] else es)
        (ex ++ [PyExc.execErr n p tr]) (PyExc.execErr n p tr) s.name := by
  rw [executeLoop, execute_pair s, h]

/-- Unfolding of the loop at a step that raises a
RollbackPostconditionError, which no except clause catches. -/
theorem loop_cons_rbErr (es : List (Step σ)) (ex : List (PyExc σ)) (s : Step σ)
    (rest : List (Step σ)) (n : String) (a : σ) (b : Option σ)
    (h : execOut s = Except.error (PyExc.rbPostErr n a b)) :
    executeLoop es ex (s :: rest) =
      ⟨es, ex, Except.error (PyExc.rbPostErr n a b), [s.name], none⟩ := by
  rw [executeLoop, execute_pair s, h]

/-- Unfolding of the loop at a step that raises an exception outside
the module error classes, which no except clause catches. -/
theorem loop_cons_other (es : List (Step σ)) (ex : List (PyExc σ)) (s : Step σ)
    (rest : List (Step σ)) (m : String)
    (h : execOut s = Except.error (PyExc.other m)) :
    executeLoop es ex (s :: rest) =
      ⟨es, ex, Except.error (PyExc.other m), [s.name], none⟩ := by
  rw [executeLoop, execute_pair s, h]

/-- The loop over steps that all succeed: every step is appended in
order, no exception is recorded, no rollback happens. -/
theorem loop_ok (l : List (Step σ)) :
    ∀ (es : List (Step σ)) (ex : List (PyExc σ)), allOk l →
      executeLoop es ex l =
        ⟨es ++ l.map execUpd, ex, Except.ok (), l.map Step.name, none⟩ := by
  induction l with
  | nil =>
    intro es ex _
    simp [executeLoop]
  | cons s t ih =>
    intro es ex h
    have hs : execOut s = Except.ok () := h s (List.mem_cons_self s t)
    have ht : allOk t := fun x hx => h x (List.mem_cons_of_mem s hx)
    rw [loop_cons_ok es ex s t hs, ih (es ++ [execUpd s]) ex ht]
    simp [List.append_assoc]

/-- Running the loop over an all-succeeding prefix followed by further
steps: the prefix commits its steps in order and the loop continues. -/
theorem loop_append_ok (pre : List (Step σ)) :
    ∀ (es : List (Step σ)) (ex : List (PyExc σ)) (l : List (Step σ)), allOk pre →
      executeLoop es ex (pre ++ l) =
        { executeLoop (es ++ pre.map execUpd) ex l with
            attempted :=
              pre.map Step.name ++ (executeLoop (es ++ pre.map execUpd) ex l).attempted } := by
  induction pre with
  | nil =>
    intro es ex l _
    simp
  | cons s t ih =>
    intro es ex l h
    have hs : execOut s = Except.ok () := h s (List.mem_cons_self s t)
    have ht : allOk t := fun x hx => h x (List.mem_cons_of_mem s hx)
    rw [List.cons_append, loop_cons_ok es ex s (t ++ l) hs, ih (es ++ [execUpd s]) ex l ht]
    simp [List.append_assoc]

/-- The empty list of steps is all-succeeding. -/
theorem allOk_nil : allOk ([] : List (Step σ)) := by
  intro s hs
  cases hs

/-- Extending an all-succeeding list by a succeeding head. -/
theorem allOk_cons {s : Step σ} {l : List (Step σ)}
    (h1 : execOut s = Except.ok ()) (h2 : allOk l) : allOk (s :: l) := by
  intro x hx
  cases hx with
  | head => exact h1
  | tail _ h => exact h2 x h

/-- The always-succeeding concrete step indeed succeeds. -/
theorem okStep_execOut (nm : String) : execOut (okStep nm) = Except.ok () := rfl

/-- Unfolding of the loop at a step whose raised exception is none of
the three error classes that the except clauses of Release.execute
name: nothing is recorded, no rollback happens, the exception
propagates. -/
theorem loop_cons_uncaught (es : List (Step σ)) (ex : List (PyExc σ)) (s : Step σ)
    (rest : List (Step σ)) (e : PyExc σ)
    (h : execOut s = Except.error e)
    (h1 : ∀ n st, e ≠ PyExc.preErr n st)
    (h2 : ∀ n a b, e ≠ PyExc.postErr n a b)
    (h3 : ∀ n p t, e ≠ PyExc.execErr n p t) :
    executeLoop es ex (s :: rest) = ⟨es, ex, Except.error e, [s.name], none⟩ := by
  cases e with
  | preErr n st => exact absurd rfl (h1 n st)
  | postErr n a b => exact absurd rfl (h2 n a b)
  | rbPostErr n a b => exact loop_cons_rbErr es ex s rest n a b h
  | execErr n p t => exact absurd rfl (h3 n p t)
  | other m => exact loop_cons_other es ex s rest m h

/-- A step whose initial check succeeded has, after execute, its
initial field set to the observed state, whatever happens later. -/
theorem execUpd_initial_of_check_ok (s : Step σ) (st : σ)
    (h : s.check_initial_result = Except.ok st) :
    (execUpd s).initial = some st ∧ (execUpd s).check_initial_result = Except.ok st := by
  constructor <;> simp [execUpd, Step.execute, Step.check_initial, Step.wrap, h]

/-- A step whose execute succeeded, or failed with a PostconditionError
or with an ExecutionError of phase CHECK_FINAL, got past its initial
check, so its initial field holds the observed state. -/
theorem initialized_of_executed (s : Step σ)
    (h : execOut s = Except.ok ()
        ∨ (∃ n a b, execOut s = Except.error (PyExc.postErr n a b))
        ∨ (∃ n tr, execOut s = Except.error (PyExc.execErr n Phase.CHECK_FINAL tr))) :
    ∃ st, (execUpd s).initial = some st ∧ (execUpd s).check_initial_result = Except.ok st := by
  cases hc : s.check_initial_result with
  | ok st => exact ⟨st, execUpd_initial_of_check_ok s st hc⟩
  | error e =>
    have hout : execOut s = Except.error (PyExc.execErr s.name Phase.CHECK_INITIAL e) := by
      simp [execOut, Step.execute, Step.check_initial, Step.wrap, hc]
    rcases h with h | ⟨n, a, b, h⟩ | ⟨n, tr, h⟩ <;> rw [hout] at h <;> simp at h

/-- The loop preserves the invariant that every step of the executed
list has its initial field set to its observed initial state. -/
theorem loop_initial_invariant (l : List (Step σ)) :
    ∀ (es : List (Step σ)) (ex : List (PyExc σ)),
      (∀ y ∈ es, ∃ st, y.initial = some st ∧ y.check_initial_result = Except.ok st) →
      ∀ x ∈ (executeLoop es ex l).executed_steps,
        ∃ st, x.initial = some st ∧ x.check_initial_result = Except.ok st := by
  induction l with
  | nil => intro es ex hinv x hx; exact hinv x hx
  | cons s t ih =>
    intro es ex hinv x hx
    cases he : execOut s with
    | ok u =>
      cases u
      have hnew := initialized_of_executed s (Or.inl he)
      rw [loop_cons_ok es ex s t he] at hx
      have hinv2 : ∀ y ∈ es ++ [execUpd s],
          ∃ st, y.initial = some st ∧ y.check_initial_result = Except.ok st := by
        intro y hy
        rcases List.mem_append.mp hy with hy | hy
        · exact hinv y hy
        · rw [List.mem_singleton] at hy
          subst hy
          exact hnew
      exact ih (es ++ [execUpd s]) ex hinv2 x hx
    | error e =>
      cases e with
      | preErr n st0 =>
        rw [loop_cons_pre es ex s t n st0 he] at hx
        exact hinv x hx
      | postErr n a b =>
        have hnew := initialized_of_executed s (Or.inr (Or.inl ⟨n, a, b, he⟩))
        rw [loop_cons_post es ex s t n a b he] at hx
        rcases List.mem_append.mp hx with hx | hx
        · exact hinv x hx
        · rw [List.mem_singleton] at hx
          subst hx
          exact hnew
      | rbPostErr n a b =>
        rw [loop_cons_rbErr es ex s t n a b he] at hx
        exact hinv x hx
      | execErr n p tr =>
        rw [loop_cons_exec es ex s t n p tr he] at hx
        by_cases hp : p = Phase.CHECK_FINAL
        · subst hp
          have hnew := initialized_of_executed s (Or.inr (Or.inr ⟨n, tr, he⟩))
          rw [if_pos rfl] at hx
          rcases List.mem_append.mp hx with hx | hx
          · exact hinv x hx
          · rw [List.mem_singleton] at hx
            subst hx
            exact hnew
        · rw [if_neg hp] at hx
          exact hinv x hx
      | other m =>
        rw [loop_cons_other es ex s t m he] at hx
        exact hinv x hx

/-- C1: the claim says the rollback cascade runs over executed_steps in
reverse chronological order of commitment.  The code iterates the list
forward: in a three step release whose third step fails its
precondition, the two committed steps are rolled back as s1 then s2,
the chronological order, not the reverse order s2 then s1; the
PreconditionError still propagates and exactly the first two steps are
rolled back. -/
theorem C1_rollback_forward_order :
    (Release.execute (relSimple [okStep "s1", okStep "s2", stepPreFalse "s3"])).rollbacks
        = some ["s1", "s2"]
    ∧ (Release.execute (relSimple [okStep "s1", okStep "s2", stepPreFalse "s3"])).rollbacks
        ≠ some ["s2", "s1"]
    ∧ (Release.execute (relSimple [okStep "s1", okStep "s2", stepPreFalse "s3"])).outcome
        = Except.error (PyExc.preErr "s3" 0) := by
  refine ⟨by decide, by decide, rfl⟩

/-- C2: the claim says a failing rollback call halts the cascade, is
recorded among the captured errors, and the original error is still
re-raised.  In the code the cascade does halt (step s2 is never rolled
back) and the original PostconditionError is re-raised, but the
ExecutionError of phase ROLLBACK raised by the cascade is caught by a
bare except and dropped: the captured exceptions hold only the
PostconditionError. -/
theorem C2_rollback_failure_swallowed :
    (Release.execute (relSimple [stepRbFail "s1", stepPostFail "s2"])).rollbacks = some ["s1"]
    ∧ (Release.execute (relSimple [stepRbFail "s1", stepPostFail "s2"])).exceptions
        = [PyExc.postErr "s2" 0 1]
    ∧ (Release.execute (relSimple [stepRbFail "s1", stepPostFail "s2"])).outcome
        = Except.error (PyExc.postErr "s2" 0 1)
    ∧ Step.rollback (execUpd (stepRbFail "s1"))
        = Except.error (PyExc.execErr "s1" Phase.ROLLBACK (PyExc.other "boom")) := by
  refine ⟨by decide, by decide, rfl, rfl⟩

/-- C3: when a step of a release raises an ExecutionError after an
all-succeeding prefix, the step is appended to executed_steps exactly
when the phase of the error is CHECK_FINAL, the error is re-raised, and
no later step is attempted. -/
theorem C3_execErr_append_iff_check_final (r : Release σ) (pre rest : List (Step σ))
    (s : Step σ) (n : String) (p : Phase) (tr : PyExc σ)
    (hsteps : r.steps = pre ++ s :: rest)
    (hes : r.executed_steps = []) (hex : r.exceptions = [])
    (hok : allOk pre)
    (hf : execOut s = Except.error (PyExc.execErr n p tr)) :
    (r.execute).executed_steps =
        (if p = Phase.CHECK_FINAL then pre.map execUpd ++ [execUpd s] else pre.map execUpd)
    ∧ (r.execute).outcome = Except.error (PyExc.execErr n p tr)
    ∧ (r.execute).attempted = pre.map Step.name ++ [s.name] := by
  have hcons := loop_cons_exec ([] ++ pre.map execUpd) [] s rest n p tr hf
  unfold Release.execute
  rw [hsteps, hes, hex, loop_append_ok pre [] [] (s :: rest) hok, hcons]
  refine ⟨?_, rfl, rfl⟩
  simp [finishFail]

/-- Witness for C3: a two step release whose second step has a failing
action raises an ExecutionError of phase EXECUTE, commits only the
first step, and never reaches anything past the failing step. -/
theorem C3_witness :
    (Release.execute (relSimple [okStep "s0", stepActionFail "s1"])).executed_steps =
        (if Phase.EXECUTE = Phase.CHECK_FINAL
          then List.map execUpd [okStep "s0"] ++ [execUpd (stepActionFail "s1")]
          else List.map execUpd [okStep "s0"])
    ∧ (Release.execute (relSimple [okStep "s0", stepActionFail "s1"])).outcome =
        Except.error (PyExc.execErr "s1" Phase.EXECUTE (PyExc.other "boom"))
    ∧ (Release.execute (relSimple [okStep "s0", stepActionFail "s1"])).attempted =
        ["s0", "s1"] :=
  C3_execErr_append_iff_check_final (relSimple [okStep "s0", stepActionFail "s1"])
    [okStep "s0"] [] (stepActionFail "s1") "s1" Phase.EXECUTE (PyExc.other "boom")
    rfl rfl rfl (allOk_cons (okStep_execOut "s0") allOk_nil) rfl

/-- C4: any unexpected exception raised by the check, the action or the
rollback action is reclassified as an ExecutionError carrying the step
name, the wrapped exception as its trace, and the phase of the exact
call site (CHECK_INITIAL, EXECUTE, CHECK_FINAL, ROLLBACK,
CHECK_ROLLBACK); the PreconditionError and PostconditionError that the
logic of the step raises itself are raised directly, never wrapped. -/
theorem C4_phase_tags (s : Step σ) (e : PyExc σ) (st fin : σ) :
    (s.check_initial_result = Except.error e →
      execOut s = Except.error (PyExc.execErr s.name Phase.CHECK_INITIAL e))
    ∧ (s.check_initial_result = Except.ok st → s.precondition st = Except.ok true →
        s.action_result = Except.error e →
        execOut s = Except.error (PyExc.execErr s.name Phase.EXECUTE e))
    ∧ (s.check_initial_result = Except.ok st → s.precondition st = Except.ok true →
        s.action_result = Except.ok () → s.check_final_result = Except.error e →
        execOut s = Except.error (PyExc.execErr s.name Phase.CHECK_FINAL e))
    ∧ (s.rollback_action_result = Except.error e →
        s.rollback = Except.error (PyExc.execErr s.name Phase.ROLLBACK e))
    ∧ (s.rollback_action_result = Except.ok () → s.check_rollback_result = Except.error e →
        s.rollback = Except.error (PyExc.execErr s.name Phase.CHECK_ROLLBACK e))
    ∧ (s.check_initial_result = Except.ok st → s.precondition st = Except.ok false →
        execOut s = Except.error (PyExc.preErr s.name st))
    ∧ (s.check_initial_result = Except.ok st → s.precondition st = Except.ok true →
        s.action_result = Except.ok () → s.check_final_result = Except.ok fin →
        fin ≠ s.expected →
        execOut s = Except.error (PyExc.postErr s.name fin s.expected)) := by
  refine ⟨?_, ?_, ?_, ?_, ?_, ?_, ?_⟩
  · intro h
    simp [execOut, Step.execute, Step.check_initial, Step.wrap, h]
  · intro h1 h2 h3
    simp [execOut, Step.execute, Step.executeAux, Step.check_initial, Step.action,
      Step.wrap, h1, h2, h3]
  · intro h1 h2 h3 h4
    simp [execOut, Step.execute, Step.executeAux, Step.check_initial, Step.action,
      Step.check_final, Step.wrap, h1, h2, h3, h4]
  · intro h
    simp [Step.rollback, Step.rollback_action, Step.wrap, h]
  · intro h1 h2
    simp [Step.rollback, Step.rollback_action, Step.check_rollback, Step.wrap, h1, h2]
  · intro h1 h2
    simp [execOut, Step.execute, Step.executeAux, Step.check_initial, Step.wrap, h1, h2]
  · intro h1 h2 h3 h4 h5
    simp [execOut, Step.execute, Step.executeAux, Step.check_initial, Step.action,
      Step.check_final, Step.wrap, h1, h2, h3, h4, h5]

/-- Witness for C4: each of the five call sites produces an
ExecutionError tagged with its own phase, while a false precondition
and a missed postcondition surface as unwrapped PreconditionError and
PostconditionError. -/
theorem C4_witness :
    execOut (stepCheckFail "a")
        = Except.error (PyExc.execErr "a" Phase.CHECK_INITIAL (PyExc.other "boom"))
    ∧ execOut (stepActionFail "b")
        = Except.error (PyExc.execErr "b" Phase.EXECUTE (PyExc.other "boom"))
    ∧ execOut (stepFinalFail "c")
        = Except.error (PyExc.execErr "c" Phase.CHECK_FINAL (PyExc.other "boom"))
    ∧ Step.rollback (stepRbFail "d")
        = Except.error (PyExc.execErr "d" Phase.ROLLBACK (PyExc.other "boom"))
    ∧ Step.rollback (stepCheckRbFail "e")
        = Except.error (PyExc.execErr "e" Phase.CHECK_ROLLBACK (PyExc.other "boom"))
    ∧ execOut (stepPreFalse "f") = Except.error (PyExc.preErr "f" 0)
    ∧ execOut (stepPostFail "g") = Except.error (PyExc.postErr "g" 0 1) := by
  refine ⟨?_, ?_, ?_, ?_, ?_, ?_, ?_⟩
  · exact (C4_phase_tags (stepCheckFail "a") (PyExc.other "boom") 0 0).1 rfl
  · exact (C4_phase_tags (stepActionFail "b") (PyExc.other "boom") 0 0).2.1 rfl rfl rfl
  · exact (C4_phase_tags (stepFinalFail "c") (PyExc.other "boom") 0 0).2.2.1 rfl rfl rfl rfl
  · exact (C4_phase_tags (stepRbFail "d") (PyExc.other "boom") 0 0).2.2.2.1 rfl
  · exact (C4_phase_tags (stepCheckRbFail "e") (PyExc.other "boom") 0 0).2.2.2.2.1 rfl rfl
  · exact (C4_phase_tags (stepPreFalse "f") (PyExc.other "boom") 0 0).2.2.2.2.2.1 rfl rfl
  · exact (C4_phase_tags (stepPostFail "g") (PyExc.other "boom") 0 0).2.2.2.2.2.2
      rfl rfl rfl rfl (by decide)

/-- C5: a step whose check succeeds and whose precondition is false on
the observed state fails with a PreconditionError carrying the step
name and the observed state, whatever the action would do (the action
is never consulted), and the release neither adds the step to
executed_steps nor returns without the error; the error is recorded. -/
theorem C5_precondition_false (r : Release σ) (pre rest : List (Step σ)) (s : Step σ)
    (st : σ)
    (hsteps : r.steps = pre ++ s :: rest)
    (hes : r.executed_steps = []) (hex : r.exceptions = [])
    (hok : allOk pre)
    (hchk : s.check_initial_result = Except.ok st)
    (hpre : s.precondition st = Except.ok false) :
    execOut s = Except.error (PyExc.preErr s.name st)
    ∧ (∀ a, execOut { s with action_result := a } = Except.error (PyExc.preErr s.name st))
    ∧ (r.execute).outcome = Except.error (PyExc.preErr s.name st)
    ∧ (r.execute).executed_steps = pre.map execUpd
    ∧ (r.execute).exceptions = [PyExc.preErr s.name st] := by
  have hout : execOut s = Except.error (PyExc.preErr s.name st) := by
    simp [execOut, Step.execute, Step.executeAux, Step.check_initial, Step.wrap, hchk, hpre]
  have hout2 : ∀ a, execOut { s with action_result := a }
      = Except.error (PyExc.preErr s.name st) := by
    intro a
    simp [execOut, Step.execute, Step.executeAux, Step.check_initial, Step.wrap, hchk, hpre]
  have hcons := loop_cons_pre ([] ++ pre.map execUpd) [] s rest s.name st hout
  refine ⟨hout, hout2, ?_, ?_, ?_⟩ <;>
      unfold Release.execute <;>
      rw [hsteps, hes, hex, loop_append_ok pre [] [] (s :: rest) hok, hcons] <;>
    simp [finishFail, explain_exceptions]

/-- Witness for C5: a release of one committed step followed by a step
with a false precondition raises the PreconditionError, commits only
the first step, and records exactly that error. -/
theorem C5_witness :
    execOut (stepPreFalse "s1") = Except.error (PyExc.preErr "s1" 0)
    ∧ execOut { stepPreFalse "s1" with action_result := Except.error (PyExc.other "x") }
        = Except.error (PyExc.preErr "s1" 0)
    ∧ (Release.execute (relSimple [okStep "s0", stepPreFalse "s1"])).outcome
        = Except.error (PyExc.preErr "s1" 0)
    ∧ (Release.execute (relSimple [okStep "s0", stepPreFalse "s1"])).executed_steps
        = [execUpd (okStep "s0")]
    ∧ (Release.execute (relSimple [okStep "s0", stepPreFalse "s1"])).exceptions
        = [PyExc.preErr "s1" 0] := by
  have h := C5_precondition_false (relSimple [okStep "s0", stepPreFalse "s1"])
    [okStep "s0"] [] (stepPreFalse "s1") 0 rfl rfl rfl
    (allOk_cons (okStep_execOut "s0") allOk_nil) rfl rfl
  exact ⟨h.1, h.2.1 (Except.error (PyExc.other "x")), h.2.2.1, h.2.2.2.1, h.2.2.2.2⟩

/-- C6: a step whose action succeeds but whose final observed state
differs from the expected state fails with a PostconditionError
carrying the step name, the final state and the expected state; the
release appends the step to executed_steps, so the rollback cascade it
then triggers runs over a list that ends with this step, and the error
is re-raised and recorded. -/
theorem C6_postcondition_fail (r : Release σ) (pre rest : List (Step σ)) (s : Step σ)
    (st fin : σ)
    (hsteps : r.steps = pre ++ s :: rest)
    (hes : r.executed_steps = []) (hex : r.exceptions = [])
    (hok : allOk pre)
    (hchk : s.check_initial_result = Except.ok st)
    (hpre : s.precondition st = Except.ok true)
    (hact : s.action_result = Except.ok ())
    (hfin : s.check_final_result = Except.ok fin)
    (hne : fin ≠ s.expected) :
    execOut s = Except.error (PyExc.postErr s.name fin s.expected)
    ∧ (r.execute).outcome = Except.error (PyExc.postErr s.name fin s.expected)
    ∧ (r.execute).executed_steps = pre.map execUpd ++ [execUpd s]
    ∧ (r.execute).rollbacks = some (rollbackLoop (pre.map execUpd ++ [execUpd s]))
    ∧ (r.execute).exceptions = [PyExc.postErr s.name fin s.expected] := by
  have hout : execOut s = Except.error (PyExc.postErr s.name fin s.expected) := by
    simp [execOut, Step.execute, Step.executeAux, Step.check_initial, Step.action,
      Step.check_final, Step.wrap, hchk, hpre, hact, hfin, hne]
  have hcons := loop_cons_post ([] ++ pre.map execUpd) [] s rest s.name fin s.expected hout
  refine ⟨hout, ?_, ?_, ?_, ?_⟩ <;>
      unfold Release.execute <;>
      rw [hsteps, hes, hex, loop_append_ok pre [] [] (s :: rest) hok, hcons] <;>
    simp [finishFail, explain_exceptions]

/-- Witness for C6: a release of one committed step followed by a step
that misses its postcondition raises the PostconditionError, commits
both steps, and rolls back over the list ending with the failing
step. -/
theorem C6_witness :
    execOut (stepPostFail "s1") = Except.error (PyExc.postErr "s1" 0 1)
    ∧ (Release.execute (relSimple [okStep "s0", stepPostFail "s1"])).outcome
        = Except.error (PyExc.postErr "s1" 0 1)
    ∧ (Release.execute (relSimple [okStep "s0", stepPostFail "s1"])).executed_steps
        = [execUpd (okStep "s0"), execUpd (stepPostFail "s1")]
    ∧ (Release.execute (relSimple [okStep "s0", stepPostFail "s1"])).rollbacks
        = some (rollbackLoop [execUpd (okStep "s0"), execUpd (stepPostFail "s1")])
    ∧ (Release.execute (relSimple [okStep "s0", stepPostFail "s1"])).exceptions
        = [PyExc.postErr "s1" 0 1] := by
  have h := C6_postcondition_fail (relSimple [okStep "s0", stepPostFail "s1"])
    [okStep "s0"] [] (stepPostFail "s1") 0 0 rfl rfl rfl
    (allOk_cons (okStep_execOut "s0") allOk_nil) rfl rfl rfl rfl (by decide)
  exact ⟨h.1, h.2.1, h.2.2.1, h.2.2.2.1, h.2.2.2.2⟩

/-- C7: the loop of Release.execute reaches the steps in exactly the
supplied order, and when a step fails, with any exception, no step
after it is ever reached: the reached steps are exactly the
all-succeeding prefix followed by the failing step. -/
theorem C7_order_and_halt (r : Release σ) (pre rest : List (Step σ)) (s : Step σ)
    (e : PyExc σ)
    (hsteps : r.steps = pre ++ s :: rest)
    (hok : allOk pre)
    (hf : execOut s = Except.error e) :
    (r.execute).attempted = pre.map Step.name ++ [s.name] := by
  have hcons : (executeLoop (r.executed_steps ++ pre.map execUpd) r.exceptions
      (s :: rest)).attempted = [s.name] := by
    cases e with
    | preErr n st => rw [loop_cons_pre _ _ _ _ n st hf]; rfl
    | postErr n a b => rw [loop_cons_post _ _ _ _ n a b hf]; rfl
    | rbPostErr n a b => rw [loop_cons_rbErr _ _ _ _ n a b hf]
    | execErr n p tr => rw [loop_cons_exec _ _ _ _ n p tr hf]; rfl
    | other m => rw [loop_cons_other _ _ _ _ m hf]
  unfold Release.execute
  rw [hsteps, loop_append_ok pre r.executed_steps r.exceptions (s :: rest) hok]
  simp [hcons]

/-- Witness for C7: a three step release whose second step fails its
precondition reaches exactly the first two steps, in order. -/
theorem C7_witness :
    (Release.execute (relSimple [okStep "s0", stepPreFalse "s1", okStep "s2"])).attempted
      = ["s0", "s1"] :=
  C7_order_and_halt (relSimple [okStep "s0", stepPreFalse "s1", okStep "s2"])
    [okStep "s0"] [okStep "s2"] (stepPreFalse "s1") (PyExc.preErr "s1" 0)
    rfl (allOk_cons (okStep_execOut "s0") allOk_nil) rfl

/-- C8: a release whose steps all succeed returns without error,
commits every step in order, records no exception, and never invokes
the rollback cascade. -/
theorem C8_all_success (r : Release σ)
    (hes : r.executed_steps = []) (hex : r.exceptions = [])
    (hok : allOk r.steps) :
    (r.execute).outcome = Except.ok ()
    ∧ (r.execute).exceptions = []
    ∧ (r.execute).rollbacks = none
    ∧ (r.execute).executed_steps = r.steps.map execUpd
    ∧ (r.execute).executed_steps.length = r.steps.length
    ∧ (r.execute).attempted = r.steps.map Step.name := by
  unfold Release.execute
  rw [hes, hex, loop_ok r.steps [] [] hok]
  simp

/-- Witness for C8: a release of two always-succeeding steps ends with
two committed steps, no exception, and no rollback. -/
theorem C8_witness :
    (Release.execute (relSimple [okStep "a", okStep "b"])).outcome = Except.ok ()
    ∧ (Release.execute (relSimple [okStep "a", okStep "b"])).exceptions = []
    ∧ (Release.execute (relSimple [okStep "a", okStep "b"])).rollbacks = none
    ∧ (Release.execute (relSimple [okStep "a", okStep "b"])).executed_steps
        = [execUpd (okStep "a"), execUpd (okStep "b")]
    ∧ (Release.execute (relSimple [okStep "a", okStep "b"])).executed_steps.length = 2
    ∧ (Release.execute (relSimple [okStep "a", okStep "b"])).attempted = ["a", "b"] :=
  C8_all_success (relSimple [okStep "a", okStep "b"]) rfl rfl
    (allOk_cons (okStep_execOut "a") (allOk_cons (okStep_execOut "b") allOk_nil))

/-- C9 as stated is false: when the precondition raises a
PreconditionError, the except clause of Release.execute catches it,
records it among the captured errors, and invokes the rollback
cascade. -/
theorem C9_counterexample :
    (Release.execute (relSimple [stepPreRaisePreErr "s1"])).exceptions
        = [PyExc.preErr "s1" 99]
    ∧ (Release.execute (relSimple [stepPreRaisePreErr "s1"])).rollbacks = some [] := by
  refine ⟨by decide, by decide⟩

/-- C9, amended: when the precondition raises an exception that is none
of the three error classes named by the except clauses of
Release.execute, it propagates out of Step.execute and Release.execute
unwrapped, with no error recorded, no rollback, and the step not
appended to executed_steps. -/
theorem C9_precondition_raise_uncaught (r : Release σ) (pre rest : List (Step σ))
    (s : Step σ) (st : σ) (e : PyExc σ)
    (hsteps : r.steps = pre ++ s :: rest)
    (hes : r.executed_steps = []) (hex : r.exceptions = [])
    (hok : allOk pre)
    (hchk : s.check_initial_result = Except.ok st)
    (hpre : s.precondition st = Except.error e)
    (h1 : ∀ n stx, e ≠ PyExc.preErr n stx)
    (h2 : ∀ n a b, e ≠ PyExc.postErr n a b)
    (h3 : ∀ n p t, e ≠ PyExc.execErr n p t) :
    execOut s = Except.error e
    ∧ (r.execute).outcome = Except.error e
    ∧ (r.execute).exceptions = []
    ∧ (r.execute).rollbacks = none
    ∧ (r.execute).executed_steps = pre.map execUpd := by
  have hout : execOut s = Except.error e := by
    simp [execOut, Step.execute, Step.executeAux, Step.check_initial, Step.wrap, hchk, hpre]
  have hcons := loop_cons_uncaught (pre.map execUpd) [] s rest e hout h1 h2 h3
  refine ⟨hout, ?_, ?_, ?_, ?_⟩ <;>
    simp [Release.execute, hsteps, hes, hex,
      loop_append_ok pre [] [] (s :: rest) hok, hcons]

/-- Witness for the amended C9: a precondition raising a generic
exception makes Release.execute propagate it with nothing recorded, no
rollback, and nothing committed. -/
theorem C9_witness :
    execOut (stepPreRaise "s1") = Except.error (PyExc.other "weird")
    ∧ (Release.execute (relSimple [stepPreRaise "s1"])).outcome
        = Except.error (PyExc.other "weird")
    ∧ (Release.execute (relSimple [stepPreRaise "s1"])).exceptions = []
    ∧ (Release.execute (relSimple [stepPreRaise "s1"])).rollbacks = none
    ∧ (Release.execute (relSimple [stepPreRaise "s1"])).executed_steps = [] :=
  C9_precondition_raise_uncaught (relSimple [stepPreRaise "s1"]) [] [] (stepPreRaise "s1")
    0 (PyExc.other "weird") rfl rfl rfl allOk_nil rfl rfl
    (fun _ _ h => PyExc.noConfusion h) (fun _ _ _ h => PyExc.noConfusion h)
    (fun _ _ _ h => PyExc.noConfusion h)

/-- C10: every step in the executed list of a finished Release.execute
has its initial field set to the state its initial check observed (no
longer the default none), so any later rollback verification compares
against the state observed before the action of that step ran. -/
theorem C10_initial_set (r : Release σ) (hes : r.executed_steps = []) :
    ∀ x ∈ (r.execute).executed_steps,
      ∃ st, x.initial = some st ∧ x.check_initial_result = Except.ok st := by
  unfold Release.execute
  rw [hes]
  exact loop_initial_invariant r.steps [] r.exceptions (by intro y hy; cases hy)

/-- Witness for C10: the committed step of a one step release has its
initial field set to the observed state 0. -/
theorem C10_witness :
    (execUpd (okStep "w1")).initial = some 0 := by
  have h := C10_initial_set (relSimple [okStep "w1"]) rfl (execUpd (okStep "w1"))
    (by show execUpd (okStep "w1") ∈ [execUpd (okStep "w1")]; exact List.mem_singleton.mpr rfl)
  obtain ⟨st, h1, h2⟩ := h
  have h3 : (Except.ok 0 : Except (PyExc Nat) Nat) = Except.ok st := h2
  injection h3 with h4
  rw [← h4] at h1
  exact h1

end ReleaseCore
